import Mathlib

/-!
# GarderieFlow — verification of the enrollment / ledger core

Shallow embedding of the enrollment-lifecycle and financial-reconciliation
core of `src/app.py` (a Flask + SQLAlchemy application), together with
theorems settling the frozen claims about it.

Modelling conventions:
* Calendar dates (`db.Date` columns) are absolute day numbers (`Int`, days
  since 1970-01-01).  SQL `date - date` is plain `Int` subtraction and
  `date + timedelta(days=n)` is `+ n`.  `extract('year', d)` /
  `extract('month', d)` are computed by the standard civil-calendar
  conversion from a day number (`civilOfDays` below).
* Timestamps (`db.DateTime` columns, e.g. `notified_at`) are a day number
  plus a nonnegative time-of-day.  PostgreSQL compares a timestamp with a
  date by casting the date to midnight, so `ts < d` holds iff `ts.day < d`.
* Monetary `Numeric(10,2)` amounts are integers (cents, exact).
* A table is a `List` of rows in insertion order; SQLAlchemy's serial
  primary keys are supplied to each mutating operation as an argument.
* `g.org_id` (the authenticated organization) is an explicit argument.
-/

/-- Enrollment status enum (`enrollment_status_enum` in app.py):
`actif`, `expiré`, `renouvelé`, `résilié` (accents dropped). -/
inductive EnrollStatus
  | actif
  | expire
  | renouvele
  | resilie
deriving DecidableEq

/-- Transaction type enum (`transaction_type_enum`): `gain`, `dépense`. -/
inductive TransType
  | gain
  | depense
deriving DecidableEq

/-- A `DateTime` value: absolute day plus nonnegative time-of-day
(seconds after midnight). -/
structure Timestamp where
  day : Int
  tod : Nat
deriving DecidableEq

/-- PostgreSQL `timestamp < date` casts the date to midnight, so the
comparison holds exactly when the timestamp's day is an earlier day. -/
def Timestamp.ltDate (ts : Timestamp) (d : Int) : Prop :=
  ts.day < d

instance (ts : Timestamp) (d : Int) : Decidable (ts.ltDate d) :=
  inferInstanceAs (Decidable (ts.day < d))

/-- The `Enrollment` model of app.py (core columns). -/
structure Enrollment where
  id : Int
  student_id : Int
  organization_id : Int
  start_date : Int
  end_date : Option Int
  amount : Int
  status : EnrollStatus
  notified_at : Option Timestamp
  terminated_at : Option Timestamp
deriving DecidableEq

/-- The `Transaction` model of app.py (core columns). -/
structure Transaction where
  id : Int
  organization_id : Int
  student_id : Option Int
  date : Int
  type : TransType
  amount : Int
  payment_method : String
  reference : Option String
  category_id : Option Int
  comment : Option String
deriving DecidableEq

/-- The `TransactionCategory` model of app.py. -/
structure TransactionCategory where
  id : Int
  organization_id : Int
  label : String
  is_system : Bool
deriving DecidableEq

/-- The database tables the core operations touch. -/
structure DBState where
  enrollments : List Enrollment
  transactions : List Transaction
  categories : List TransactionCategory
deriving DecidableEq

/-! ## List helpers (row lookup / in-place mutation of one ORM object) -/

/-- Replace the element at position `i` by `f` of it (SQLAlchemy mutates the
one object the query returned; all other rows are untouched). -/
def updateAt {α : Type} (l : List α) (i : Nat) (f : α → α) : List α :=
  match l, i with
  | [], _ => []
  | x :: xs, 0 => f x :: xs
  | x :: xs, Nat.succ n => x :: updateAt xs n f

/-- Embeds `first()` / `first_or_404()`: the first row satisfying the filter,
together with its position. -/
def findIdxElem {α : Type} (p : α → Bool) : List α → Option (Nat × α)
  | [] => none
  | x :: xs =>
    if p x then some (0, x)
    else (findIdxElem p xs).map (fun r => (r.1 + 1, r.2))

/-! ## RecordPayment (`record_payment`, app.py lines 518–556) -/

/-- Filter of the enrollment lookup in `record_payment`:
`Enrollment.query.filter_by(student_id=student_id, status='actif')`.
Note: the lookup has NO `organization_id` filter. -/
def paymentMatches (sid : Int) (e : Enrollment) : Bool :=
  decide (e.student_id = sid ∧ e.status = EnrollStatus.actif)

/-- Holds when `a` sorts strictly before `b` under `ORDER BY end_date DESC`
(PostgreSQL places NULLs first on a descending sort). -/
def sortsBefore : Option Int → Option Int → Bool
  | none, none => false
  | none, some _ => true
  | some _, none => false
  | some x, some y => decide (y < x)

/-- Scan for the row `order_by(Enrollment.end_date.desc()).first()` returns:
the position of the first matching row with the greatest sort key. -/
def selectIdxAux (sid : Int) : List Enrollment → Nat → Option (Nat × Option Int) → Option Nat
  | [], _, best => best.map Prod.fst
  | e :: rest, i, best =>
    let best' :=
      if paymentMatches sid e then
        match best with
        | none => some (i, e.end_date)
        | some (j, k) => if sortsBefore e.end_date k then some (i, e.end_date) else some (j, k)
      else best
    selectIdxAux sid rest (i + 1) best'

/-- Position of the current active enrollment `record_payment` operates on. -/
def selectIdx (es : List Enrollment) (sid : Int) : Option Nat :=
  selectIdxAux sid es 0 none

/-- Embeds `record_payment`: insert the gain transaction, then extend the current
active enrollment (status → `renouvelé`, `end_date += duration_days` when
non-null) or, when none exists, create a fresh active enrollment running
from the payment date for `duration_days`.  `transId` / `enrollId` are the
serial ids the database would assign. -/
def record_payment (s : DBState) (org sid amount : Int) (pm : String)
    (dateVal durationDays : Int) (reference comment : Option String)
    (transId enrollId : Int) : DBState :=
  let trans : Transaction :=
    ⟨transId, org, some sid, dateVal, TransType.gain, amount, pm, reference, none, comment⟩
  match selectIdx s.enrollments sid with
  | some i =>
    { s with
      enrollments := updateAt s.enrollments i (fun e =>
        { e with
          end_date := match e.end_date with
            | some d => some (d + durationDays)
            | none => none
          status := EnrollStatus.renouvele })
      transactions := s.transactions ++ [trans] }
  | none =>
    let ne : Enrollment :=
      ⟨enrollId, sid, org, dateVal, some (dateVal + durationDays), amount,
        EnrollStatus.actif, none, none⟩
    { s with
      enrollments := s.enrollments ++ [ne]
      transactions := s.transactions ++ [trans] }

/-! ## RecordExpense (`record_expense`, app.py lines 558–575) -/

/-- Embeds `record_expense`: insert a `dépense` transaction whose stored amount is
`-abs(data['amount'])` ("Ensure negative" in the source). -/
def record_expense (s : DBState) (org amount : Int) (pm : String)
    (categoryId : Int) (dateVal : Int) (reference comment : Option String)
    (transId : Int) : DBState :=
  { s with
    transactions := s.transactions ++
      [⟨transId, org, none, dateVal, TransType.depense, -|amount|, pm,
        reference, some categoryId, comment⟩] }

/-! ## CheckExpirations (`check_expirations`, app.py lines 637–659) -/

/-- The hard-coded notification thresholds (days before expiration). -/
def expThresholds : List Int := [0, 1, 3, 7]

/-- Value of `max(thresholds)` in the SQL filter. -/
def maxThreshold : Int := expThresholds.foldl max 0

/-- SQL filter of the `expiring` query: organization-scoped, status
`actif`, non-null `end_date`, `end_date - today <= max(thresholds)`, and
`notified_at IS NULL OR notified_at < today`. -/
def isCandidate (org today : Int) (e : Enrollment) : Bool :=
  decide (e.organization_id = org) &&
  decide (e.status = EnrollStatus.actif) &&
  (match e.end_date with
   | none => false
   | some ed => decide (ed - today ≤ maxThreshold)) &&
  (match e.notified_at with
   | none => true
   | some ts => decide (ts.ltDate today))

/-- The Python loop body for one enrollment: when the row is a candidate
and `days_left = end_date - today` is exactly one of the thresholds, stamp
`notified_at = now` and report the id. -/
def stampOne (org today : Int) (now : Timestamp) (e : Enrollment) :
    Enrollment × Option Int :=
  if isCandidate org today e then
    match e.end_date with
    | some ed =>
      if decide ((ed - today) ∈ expThresholds) then
        ({ e with notified_at := some now }, some e.id)
      else (e, none)
    | none => (e, none)
  else (e, none)

/-- The loop over all enrollments, in table order: the updated table and
the `notified` id list. -/
def checkRun (org today : Int) (now : Timestamp) :
    List Enrollment → List Enrollment × List Int
  | [] => ([], [])
  | e :: rest =>
    let r := stampOne org today now e
    let rr := checkRun org today now rest
    (r.1 :: rr.1, match r.2 with
      | some i => i :: rr.2
      | none => rr.2)

/-- Embeds `check_expirations`: `today` is the current calendar day and `now` the
current timestamp (the source reads both from the wall clock). -/
def check_expirations (s : DBState) (org today : Int) (now : Timestamp) :
    DBState × List Int :=
  let r := checkRun org today now s.enrollments
  ({ s with enrollments := r.1 }, r.2)

/-! ## TerminateEnrollment (`terminate_enrollment`, app.py lines 681–688) -/

/-- Filter `Enrollment.query.filter_by(id=id, organization_id=g.org_id)`. -/
def enrollByIdOrg (eid org : Int) (e : Enrollment) : Bool :=
  decide (e.id = eid ∧ e.organization_id = org)

/-- Embeds `terminate_enrollment`: look the row up by id within the caller's
organization (`none` = the 404 branch), set status `résilié` and stamp
`terminated_at = now`. -/
def terminate_enrollment (s : DBState) (org eid : Int) (now : Timestamp) :
    Option DBState :=
  match findIdxElem (enrollByIdOrg eid org) s.enrollments with
  | none => none
  | some (i, _) =>
    some { s with
      enrollments := updateAt s.enrollments i (fun e =>
        { e with status := EnrollStatus.resilie, terminated_at := some now }) }

/-! ## RenewEnrollment (`renew_enrollment`, app.py lines 661–679) -/

/-- Embeds `renew_enrollment`: look the row up by id within the caller's
organization, set its status to `renouvelé` unconditionally, and append a
fresh active enrollment starting the day after the old `end_date` (or
`today` when it is null).  `amountOpt` is `data.get('amount', ...)`;
`newId` the serial id of the new row.  Returns the new state and the
`new_id` of the response. -/
def renew_enrollment (s : DBState) (org eid durationDays : Int)
    (amountOpt : Option Int) (today : Int) (newId : Int) :
    Option (DBState × Int) :=
  match findIdxElem (enrollByIdOrg eid org) s.enrollments with
  | none => none
  | some (i, e) =>
    let new_start : Int := match e.end_date with
      | some d => d + 1
      | none => today
    let ne : Enrollment :=
      ⟨newId, e.student_id, org, new_start, some (new_start + durationDays),
        amountOpt.getD e.amount, EnrollStatus.actif, none, none⟩
    some ({ s with
      enrollments :=
        updateAt s.enrollments i (fun e => { e with status := EnrollStatus.renouvele })
        ++ [ne] }, newId)

/-! ## Civil-calendar conversion

`extract('year', d)` / `extract('month', d)` on a day-number date, via the
standard days-to-civil algorithm (proleptic Gregorian, day 0 = 1970-01-01).
-/

/-- Day number of a civil date `(y, m, d)`. -/
def daysFromCivil (y m d : Int) : Int :=
  let y' := if m ≤ 2 then y - 1 else y
  let era := Int.fdiv y' 400
  let yoe := y' - era * 400
  let mp := if m > 2 then m - 3 else m + 9
  let doy := Int.fdiv (153 * mp + 2) 5 + d - 1
  let doe := yoe * 365 + Int.fdiv yoe 4 - Int.fdiv yoe 100 + doy
  era * 146097 + doe - 719468

/-- Civil date `(y, m, d)` of a day number. -/
def civilOfDays (z : Int) : Int × Int × Int :=
  let z' := z + 719468
  let era := Int.fdiv z' 146097
  let doe := z' - era * 146097
  let yoe := Int.fdiv (doe - Int.fdiv doe 1460 + Int.fdiv doe 36524 - Int.fdiv doe 146096) 365
  let y := yoe + era * 400
  let doy := doe - (365 * yoe + Int.fdiv yoe 4 - Int.fdiv yoe 100)
  let mp := Int.fdiv (5 * doy + 2) 153
  let d := doy - Int.fdiv (153 * mp + 2) 5 + 1
  let m := if mp < 10 then mp + 3 else mp - 9
  (if m ≤ 2 then y + 1 else y, m, d)

/-- Embeds `extract('year', d)`. -/
def dateYear (z : Int) : Int := (civilOfDays z).1

/-- Embeds `extract('month', d)`. -/
def dateMonth (z : Int) : Int := (civilOfDays z).2.1

/-- The monthly-report window filter on a transaction date. -/
def inMonth (y m z : Int) : Bool :=
  decide (dateYear z = y ∧ dateMonth z = m)

/-- The annual-report window filter on a transaction date. -/
def inYear (y z : Int) : Bool :=
  decide (dateYear z = y)

/-! ## Reports and balance (`monthly_report` 691–734, `annual_report`
736–778, `dashboard` 578–614) -/

/-- Sum of gain-transaction amounts of the organization inside the window
(`func.sum(...)`, with `scalar() or 0.0` giving `0` on no rows). -/
def gainsSum (s : DBState) (org : Int) (w : Int → Bool) : Int :=
  ((s.transactions.filter (fun t =>
    decide (t.organization_id = org) && decide (t.type = TransType.gain) &&
      w t.date)).map Transaction.amount).sum

/-- One row of the `expenses_by_cat` inner join: the category label and the
amount, when the transaction passes the filter AND its `category_id`
matches an existing category row. -/
def joinRow (cats : List TransactionCategory) (org : Int) (w : Int → Bool)
    (t : Transaction) : Option (String × Int) :=
  if decide (t.organization_id = org) && decide (t.type = TransType.depense) && w t.date then
    match t.category_id with
    | some cid =>
      match cats.find? (fun c => decide (c.id = cid)) with
      | some c => some (c.label, t.amount)
      | none => none
    | none => none
  else none

/-- The joined `(label, amount)` rows feeding `GROUP BY label`. -/
def expenseJoinRows (s : DBState) (org : Int) (w : Int → Bool) :
    List (String × Int) :=
  s.transactions.filterMap (joinRow s.categories org w)

/-- Add one joined row's amount into the per-label running totals. -/
def addToGroup (l : List (String × Int)) (key : String) (v : Int) :
    List (String × Int) :=
  match l with
  | [] => [(key, v)]
  | (k, tot) :: rest =>
    if k = key then (k, tot + v) :: rest else (k, tot) :: addToGroup rest key v

/-- Embeds `GROUP BY TransactionCategory.label` with `func.sum(amount)`. -/
def groupSum (rows : List (String × Int)) : List (String × Int) :=
  rows.foldl (fun acc r => addToGroup acc r.1 r.2) []

/-- The payload of `monthly_report` / `annual_report` that the claims are
about (the occupancy figure is not covered by any claim and is omitted). -/
structure Report where
  gains : Int
  expenses : List (String × Int)
  total_expenses : Int
  profit_loss : Int
deriving DecidableEq

/-- Core of both reports, parameterised by the window filter:
`gains` = sum of gain transactions, `expenses` = grouped per-category
expense totals, `total_expenses` = `sum(float(t) for _, t in ...)`,
`profit_loss = gains + total_expenses`. -/
def reportFor (s : DBState) (org : Int) (w : Int → Bool) : Report :=
  let gains := gainsSum s org w
  let expenses := groupSum (expenseJoinRows s org w)
  let total_expenses := (expenses.map Prod.snd).sum
  ⟨gains, expenses, total_expenses, gains + total_expenses⟩

/-- Embeds `monthly_report`. -/
def monthly_report (s : DBState) (org y m : Int) : Report :=
  reportFor s org (inMonth y m)

/-- Embeds `annual_report` (gains/expenses part). -/
def annual_report (s : DBState) (org y : Int) : Report :=
  reportFor s org (inYear y)

/-- The dashboard balance: sum of ALL transaction amounts of the
organization, any type, any date (`scalar() or 0.0`). -/
def balance (s : DBState) (org : Int) : Int :=
  ((s.transactions.filter (fun t => decide (t.organization_id = org))).map
    Transaction.amount).sum

/-! ## DeleteCategory (`delete_category`, app.py lines 813–821, plus the
`ondelete='SET NULL'` foreign key of `Transaction.category_id`) -/

/-- Embeds `delete_category`: deleting a non-system category of the caller's
organization removes the row; the `SET NULL` foreign key nulls the
`category_id` of every transaction that referenced it.  `none` covers both
the 404 (no such category in this organization) and the 403 (system
category) responses, which leave the state unchanged. -/
def delete_category (s : DBState) (org cid : Int) : Option DBState :=
  match findIdxElem (fun c =>
      decide (c.id = cid ∧ c.organization_id = org)) s.categories with
  | none => none
  | some (_, c) =>
    if c.is_system then none
    else some
      { s with
        categories := s.categories.filter (fun c => decide (¬ c.id = cid))
        transactions := s.transactions.map (fun t =>
          if t.category_id = some cid then { t with category_id := none } else t) }

/-! ## Helper lemmas -/

theorem updateAt_length {α : Type} (l : List α) (i : Nat) (f : α → α) :
    (updateAt l i f).length = l.length := by
  induction l generalizing i with
  | nil => rfl
  | cons x xs ih =>
    cases i with
    | zero => rfl
    | succ n => simp [updateAt, ih]

theorem updateAt_append_cons {α : Type} (pre post : List α) (x : α) (f : α → α) :
    updateAt (pre ++ x :: post) pre.length f = pre ++ f x :: post := by
  induction pre with
  | nil => rfl
  | cons y ys ih => simp [updateAt, ih]

theorem updateAt_getElem_ne {α : Type} (l : List α) (i j : Nat) (f : α → α)
    (h : i ≠ j) : (updateAt l j f)[i]? = l[i]? := by
  induction l generalizing i j with
  | nil => rfl
  | cons x xs ih =>
    cases j with
    | zero =>
      cases i with
      | zero => exact absurd rfl h
      | succ n => simp [updateAt]
    | succ m =>
      cases i with
      | zero => simp [updateAt]
      | succ n =>
        simp only [updateAt, List.getElem?_cons_succ]
        exact ih n m (fun hnm => h (by omega))

theorem updateAt_getElem_self {α : Type} (l : List α) (i : Nat) (f : α → α) :
    (updateAt l i f)[i]? = (l[i]?).map f := by
  induction l generalizing i with
  | nil => rfl
  | cons x xs ih =>
    cases i with
    | zero => simp [updateAt]
    | succ n => simpa [updateAt] using ih n

theorem findIdxElem_sound {α : Type} (p : α → Bool) (l : List α) (i : Nat) (e : α)
    (h : findIdxElem p l = some (i, e)) : l[i]? = some e ∧ p e = true := by
  induction l generalizing i with
  | nil => simp [findIdxElem] at h
  | cons x xs ih =>
    by_cases hx : p x = true
    · rw [findIdxElem, if_pos hx] at h
      obtain ⟨h1, h2⟩ : (0 : Nat) = i ∧ x = e := by
        have := Option.some.inj h
        exact ⟨congrArg Prod.fst this, congrArg Prod.snd this⟩
      subst h1; subst h2
      exact ⟨by simp, hx⟩
    · rw [findIdxElem, if_neg hx] at h
      cases hfx : findIdxElem p xs with
      | none => rw [hfx] at h; simp at h
      | some r =>
        obtain ⟨j, a⟩ := r
        rw [hfx] at h
        simp only [Option.map_some'] at h
        have hje := Option.some.inj h
        have hj : j + 1 = i := congrArg Prod.fst hje
        have ha : a = e := congrArg Prod.snd hje
        subst ha
        cases i with
        | zero => omega
        | succ n =>
          have hn : j = n := by omega
          subst hn
          simpa using ih j hfx

theorem findIdxElem_updateAt {α : Type} (p : α → Bool) (l : List α) (i : Nat)
    (e : α) (f : α → α) (h : findIdxElem p l = some (i, e))
    (hf : p (f e) = true) :
    findIdxElem p (updateAt l i f) = some (i, f e) := by
  induction l generalizing i with
  | nil => simp [findIdxElem] at h
  | cons x xs ih =>
    by_cases hx : p x = true
    · rw [findIdxElem, if_pos hx] at h
      obtain ⟨h1, h2⟩ : (0 : Nat) = i ∧ x = e := by
        have := Option.some.inj h
        exact ⟨congrArg Prod.fst this, congrArg Prod.snd this⟩
      subst h1; subst h2
      simp [updateAt, findIdxElem, hf]
    · rw [findIdxElem, if_neg hx] at h
      cases hfx : findIdxElem p xs with
      | none => rw [hfx] at h; simp at h
      | some r =>
        obtain ⟨j, a⟩ := r
        rw [hfx] at h
        simp only [Option.map_some'] at h
        have hje := Option.some.inj h
        have hj : j + 1 = i := congrArg Prod.fst hje
        have ha : a = e := congrArg Prod.snd hje
        subst ha
        cases i with
        | zero => omega
        | succ n =>
          have hn : j = n := by omega
          subst hn
          simp [updateAt, findIdxElem, hx, ih j hfx]

/-- Scanning rows none of which match leaves the best candidate as it was. -/
theorem selectIdxAux_all_miss (sid : Int) (es : List Enrollment) :
    ∀ (i : Nat) (best : Option (Nat × Option Int)),
    (∀ e ∈ es, paymentMatches sid e = false) →
    selectIdxAux sid es i best = best.map Prod.fst := by
  induction es with
  | nil => intro i best _; rfl
  | cons e rest ih =>
    intro i best h
    have he : paymentMatches sid e = false := h e (by simp)
    simp only [selectIdxAux, he, Bool.false_eq_true, if_false]
    exact ih (i + 1) best (fun x hx => h x (by simp [hx]))

/-- When no enrollment of the student is `actif`, the payment lookup finds
no row. -/
theorem selectIdx_eq_none (es : List Enrollment) (sid : Int)
    (h : ∀ e ∈ es, paymentMatches sid e = false) :
    selectIdx es sid = none := by
  simpa using selectIdxAux_all_miss sid es 0 none h

/-- A non-matching prefix is scanned past, advancing only the position. -/
theorem selectIdxAux_skip (sid : Int) (pre : List Enrollment) :
    ∀ (rest : List Enrollment) (i : Nat) (best : Option (Nat × Option Int)),
    (∀ e ∈ pre, paymentMatches sid e = false) →
    selectIdxAux sid (pre ++ rest) i best = selectIdxAux sid rest (i + pre.length) best := by
  induction pre with
  | nil => intro rest i best _; simp
  | cons e pr ih =>
    intro rest i best h
    have he : paymentMatches sid e = false := h e (by simp)
    simp only [List.cons_append, selectIdxAux, he, Bool.false_eq_true, if_false,
      List.append_eq]
    rw [ih rest (i + 1) best (fun x hx => h x (by simp [hx]))]
    congr 1
    simp only [List.length_cons]
    omega

/-- With exactly one matching row, the payment lookup returns its position. -/
theorem selectIdx_single (pre post : List Enrollment) (e : Enrollment) (sid : Int)
    (he : paymentMatches sid e = true)
    (hothers : ∀ x ∈ pre ++ post, paymentMatches sid x = false) :
    selectIdx (pre ++ e :: post) sid = some pre.length := by
  have hpre : ∀ x ∈ pre, paymentMatches sid x = false :=
    fun x hx => hothers x (by simp [hx])
  have hpost : ∀ x ∈ post, paymentMatches sid x = false :=
    fun x hx => hothers x (by simp [hx])
  unfold selectIdx
  rw [selectIdxAux_skip sid pre (e :: post) 0 none hpre]
  simp only [selectIdxAux, he, if_true]
  rw [selectIdxAux_all_miss sid post (0 + pre.length + 1) (some (0 + pre.length, e.end_date)) hpost]
  simp

/-- Whatever row the payment lookup returns matches the lookup's filter. -/
theorem selectIdx_sound (es : List Enrollment) (sid : Int) (j : Nat)
    (h : selectIdx es sid = some j) :
    ∃ a, es[j]? = some a ∧ paymentMatches sid a = true := by
  suffices H : ∀ (l : List Enrollment) (i : Nat) (best : Option (Nat × Option Int)),
      (∀ n : Nat, l[n]? = es[i + n]?) →
      (∀ jk : Nat × Option Int, best = some jk →
        ∃ a, es[jk.1]? = some a ∧ paymentMatches sid a = true) →
      selectIdxAux sid l i best = some j →
      ∃ a, es[j]? = some a ∧ paymentMatches sid a = true by
    refine H es 0 none (fun n => by simp) (by simp) h
  intro l
  induction l with
  | nil =>
    intro i best _ hbest haux
    simp only [selectIdxAux] at haux
    obtain ⟨⟨j', k⟩, hjk, hj⟩ := Option.map_eq_some'.mp haux
    obtain ⟨a, ha, hpa⟩ := hbest (j', k) hjk
    exact ⟨a, by rwa [hj] at ha, hpa⟩
  | cons x xs ih =>
    intro i best hes hbest haux
    simp only [selectIdxAux] at haux
    have hx0 : es[i]? = some x := by
      have := hes 0
      simpa using this.symm
    refine ih (i + 1) _ (fun n => by
      have h1 := hes (n + 1)
      have h2 : i + (n + 1) = i + 1 + n := by omega
      rw [h2] at h1
      simpa using h1) ?_ haux
    rintro ⟨j0, k0⟩ hjk
    by_cases hm : paymentMatches sid x = true
    · simp only [hm, if_true] at hjk
      cases hb : best with
      | none =>
        rw [hb] at hjk
        simp only [Option.some.injEq, Prod.mk.injEq] at hjk
        obtain ⟨hj0, _⟩ := hjk
        subst hj0
        exact ⟨x, hx0, hm⟩
      | some jk0 =>
        obtain ⟨j1, k1⟩ := jk0
        rw [hb] at hjk
        by_cases hs : sortsBefore x.end_date k1 = true
        · simp only [hs, if_true, Option.some.injEq, Prod.mk.injEq] at hjk
          obtain ⟨hj0, _⟩ := hjk
          subst hj0
          exact ⟨x, hx0, hm⟩
        · simp only [hs, Bool.false_eq_true, if_false, Option.some.injEq,
            Prod.mk.injEq] at hjk
          obtain ⟨hj0, hk0⟩ := hjk
          subst hj0
          exact hbest (j1, k1) hb
    · simp only [Bool.not_eq_true] at hm
      simp only [hm, Bool.false_eq_true, if_false] at hjk
      exact hbest (j0, k0) hjk

/-! ## Claim C1 -/

/-- C1: a `RecordPayment` call for a student with no enrollment in status
`actif` creates exactly one new enrollment — `start_date` = payment date,
`end_date` = payment date + `duration_days`, status `actif`, amount = the
paid amount — and exactly one `gain` transaction over the input amount;
nothing else changes. -/
theorem C1_payment_without_active_creates (s : DBState) (org sid amount : Int)
    (pm : String) (dateVal durationDays : Int) (reference comment : Option String)
    (transId enrollId : Int)
    (h : ∀ e ∈ s.enrollments, ¬(e.student_id = sid ∧ e.status = EnrollStatus.actif)) :
    record_payment s org sid amount pm dateVal durationDays reference comment transId enrollId =
      { s with
        enrollments := s.enrollments ++
          [⟨enrollId, sid, org, dateVal, some (dateVal + durationDays), amount,
            EnrollStatus.actif, none, none⟩]
        transactions := s.transactions ++
          [⟨transId, org, some sid, dateVal, TransType.gain, amount, pm, reference,
            none, comment⟩] } := by
  have hsel : selectIdx s.enrollments sid = none :=
    selectIdx_eq_none _ _ (fun e he => by
      simp only [paymentMatches, decide_eq_false_iff_not]
      exact h e he)
  simp only [record_payment, hsel]

/-- Witness for C1 at a concrete input (empty database). -/
theorem C1_witness :
    (∀ e ∈ (⟨[], [], []⟩ : DBState).enrollments,
      ¬(e.student_id = 1 ∧ e.status = EnrollStatus.actif)) ∧
    record_payment ⟨[], [], []⟩ 1 1 100 "cash" 0 30 none none 1 1 =
      { (⟨[], [], []⟩ : DBState) with
        enrollments := [] ++
          [⟨1, 1, 1, 0, some (0 + 30), 100, EnrollStatus.actif, none, none⟩]
        transactions := [] ++
          [⟨1, 1, some 1, 0, TransType.gain, 100, "cash", none, none, none⟩] } :=
  ⟨by simp, C1_payment_without_active_creates ⟨[], [], []⟩ 1 1 100 "cash" 0 30
    none none 1 1 (by simp)⟩

/-! ## Claim C2 -/

/-- C2: a `RecordPayment` call for a student whose unique `actif` enrollment
has `end_date = E` extends that enrollment to `E + duration_days` and flips
its status to `renouvelé`, creating no new enrollment row; when its
`end_date` is null it stays null and only the status changes. -/
theorem C2_payment_with_active_extends (s : DBState) (org sid amount : Int)
    (pm : String) (dateVal durationDays : Int) (reference comment : Option String)
    (transId enrollId : Int) (pre post : List Enrollment) (e : Enrollment)
    (hsplit : s.enrollments = pre ++ e :: post)
    (he : e.student_id = sid ∧ e.status = EnrollStatus.actif)
    (hothers : ∀ x ∈ pre ++ post, ¬(x.student_id = sid ∧ x.status = EnrollStatus.actif)) :
    (record_payment s org sid amount pm dateVal durationDays reference comment
        transId enrollId).enrollments =
      pre ++ { e with
        end_date := e.end_date.map (fun d => d + durationDays)
        status := EnrollStatus.renouvele } :: post ∧
    (record_payment s org sid amount pm dateVal durationDays reference comment
        transId enrollId).enrollments.length = s.enrollments.length := by
  have hsel : selectIdx s.enrollments sid = some pre.length := by
    rw [hsplit]
    refine selectIdx_single pre post e sid ?_ ?_
    · simp only [paymentMatches, decide_eq_true_eq]
      exact he
    · intro x hx
      simp only [paymentMatches, decide_eq_false_iff_not]
      exact hothers x hx
  constructor
  · simp only [record_payment, hsel]
    rw [hsplit, updateAt_append_cons]
    cases he' : e.end_date <;> simp [he']
  · simp only [record_payment, hsel]
    exact updateAt_length _ _ _

/-- Witness for C2 at a concrete input (one active enrollment ending on
day 10, payment of duration 30). -/
theorem C2_witness :
    ((⟨[⟨1, 1, 1, 0, some 10, 100, EnrollStatus.actif, none, none⟩], [], []⟩ :
        DBState).enrollments =
      [] ++ ⟨1, 1, 1, 0, some 10, 100, EnrollStatus.actif, none, none⟩ :: []) ∧
    (record_payment
        ⟨[⟨1, 1, 1, 0, some 10, 100, EnrollStatus.actif, none, none⟩], [], []⟩
        1 1 100 "cash" 5 30 none none 2 2).enrollments =
      [] ++ { (⟨1, 1, 1, 0, some 10, 100, EnrollStatus.actif, none, none⟩ : Enrollment) with
        end_date := (some (10 : Int)).map (fun d => d + 30)
        status := EnrollStatus.renouvele } :: [] :=
  ⟨rfl,
    (C2_payment_with_active_extends
      ⟨[⟨1, 1, 1, 0, some 10, 100, EnrollStatus.actif, none, none⟩], [], []⟩
      1 1 100 "cash" 5 30 none none 2 2 [] []
      ⟨1, 1, 1, 0, some 10, 100, EnrollStatus.actif, none, none⟩
      rfl (by exact ⟨rfl, rfl⟩) (by simp)).1⟩

/-! ## Claim C3 -/

/-- C3: `RecordExpense` always persists the amount as the negation of the
absolute value of the input, hence a value ≤ 0; both `amount = 50` and
`amount = -50` store `-50`. -/
theorem C3_expense_stored_nonpositive :
    (∀ (s : DBState) (org amount : Int) (pm : String) (cid dateVal : Int)
      (reference comment : Option String) (transId : Int),
      (record_expense s org amount pm cid dateVal reference comment transId).transactions =
        s.transactions ++
          [⟨transId, org, none, dateVal, TransType.depense, -|amount|, pm, reference,
            some cid, comment⟩] ∧
      -|amount| ≤ 0) ∧
    (record_expense ⟨[], [], []⟩ 1 50 "cash" 1 0 none none 1).transactions.map
        Transaction.amount = [-50] ∧
    (record_expense ⟨[], [], []⟩ 1 (-50) "cash" 1 0 none none 1).transactions.map
        Transaction.amount = [-50] := by
  refine ⟨fun s org amount pm cid dateVal reference comment transId =>
    ⟨rfl, neg_nonpos.mpr (abs_nonneg amount)⟩, by decide, by decide⟩

/-! ## CheckExpirations: declarative characterization -/

/-- Modelled from the spec's wording of notification eligibility (§4.3 /
claim C5): the enrollment belongs to the organization, is `actif`, has a
non-null `end_date`, its `notified_at` is null or on an earlier calendar
day than today, and `days_left = end_date - today` is exactly one of the
thresholds. -/
def specNotifyEligible (org today : Int) (e : Enrollment) : Bool :=
  decide (e.organization_id = org) &&
  decide (e.status = EnrollStatus.actif) &&
  (match e.end_date with
   | none => false
   | some ed => decide ((ed - today) ∈ expThresholds)) &&
  (match e.notified_at with
   | none => true
   | some ts => decide (ts.day < today))

/-- The loop body fires exactly on the declaratively eligible rows: the
`≤ max(thresholds)` pre-filter is subsumed by exact threshold membership. -/
theorem stampOne_eq_spec (org today : Int) (now : Timestamp) (e : Enrollment) :
    stampOne org today now e =
      (if specNotifyEligible org today e = true then { e with notified_at := some now } else e,
       if specNotifyEligible org today e = true then some e.id else none) := by
  unfold stampOne isCandidate specNotifyEligible Timestamp.ltDate
  cases he : e.end_date with
  | none => simp [he]
  | some ed =>
    by_cases hm : (ed - today) ∈ expThresholds
    · have hle : ed - today ≤ maxThreshold := by
        have h7 : maxThreshold = 7 := by decide
        simp only [expThresholds, List.mem_cons, List.not_mem_nil, or_false] at hm
        omega
      have hC : decide (ed - today ≤ maxThreshold) = true := decide_eq_true hle
      have hM : decide ((ed - today) ∈ expThresholds) = true := decide_eq_true hm
      simp only [he, hC, hM, Bool.and_true, Bool.true_and]
      split <;> simp
    · have hM : decide ((ed - today) ∈ expThresholds) = false := decide_eq_false hm
      simp only [he, hM, Bool.and_false, Bool.false_and, Bool.false_eq_true, if_false]
      split <;> simp

/-- Lemma: `checkRun` stamps exactly the eligible rows and lists their ids in
table order. -/
theorem checkRun_eq (org today : Int) (now : Timestamp) (es : List Enrollment) :
    checkRun org today now es =
      (es.map (fun e =>
        if specNotifyEligible org today e = true then { e with notified_at := some now } else e),
       (es.filter (specNotifyEligible org today)).map Enrollment.id) := by
  induction es with
  | nil => rfl
  | cons e rest ih =>
    simp only [checkRun, ih, stampOne_eq_spec, List.map_cons, List.filter_cons]
    by_cases hc : specNotifyEligible org today e = true
    · simp [hc]
    · simp [hc]

theorem filter_eq_nil_of {α : Type} (p : α → Bool) (l : List α)
    (h : ∀ a ∈ l, p a = false) : l.filter p = [] := by
  induction l with
  | nil => rfl
  | cons x xs ih =>
    simp [List.filter_cons, h x (by simp), ih (fun a ha => h a (by simp [ha]))]

theorem map_eq_self_of {α : Type} (f : α → α) (l : List α)
    (h : ∀ a ∈ l, f a = a) : l.map f = l := by
  induction l with
  | nil => rfl
  | cons x xs ih =>
    simp [h x (by simp), ih (fun a ha => h a (by simp [ha]))]

/-! ## Claim C5 -/

/-- C5: `CheckExpirations` returns exactly the ids of the enrollments that
are `actif`, org-scoped, with non-null `end_date`, `notified_at` null or on
an earlier day than today, and `days_left` exactly one of `[0, 1, 3, 7]`;
exactly those rows get `notified_at := now`, every other row (including
candidates whose `days_left ≤ 7` misses the thresholds) is unchanged. -/
theorem C5_check_expirations_exact (s : DBState) (org today : Int) (now : Timestamp) :
    (check_expirations s org today now).2 =
      (s.enrollments.filter (specNotifyEligible org today)).map Enrollment.id ∧
    (check_expirations s org today now).1 =
      { s with enrollments := s.enrollments.map (fun e =>
          if specNotifyEligible org today e = true then
            { e with notified_at := some now }
          else e) } := by
  constructor <;> simp [check_expirations, checkRun_eq]

/-! ## Claim C4 -/

/-- C4: `CheckExpirations` is idempotent per calendar day — after a first
run on day `today` (whose `now` timestamp falls on `today`), a second run
on the same day returns an empty notified list and changes nothing. -/
theorem C4_check_expirations_idempotent (s : DBState) (org today : Int)
    (now1 now2 : Timestamp) (h1 : now1.day = today) (h2 : now2.day = today) :
    (check_expirations (check_expirations s org today now1).1 org today now2).2 = [] ∧
    (check_expirations (check_expirations s org today now1).1 org today now2).1 =
      (check_expirations s org today now1).1 := by
  have key : ∀ e : Enrollment,
      specNotifyEligible org today
        (if specNotifyEligible org today e = true then
          { e with notified_at := some now1 } else e) = false := by
    intro e
    cases hb : specNotifyEligible org today e with
    | false => simp [hb]
    | true =>
      simp only [hb, if_true]
      have hlt : decide (now1.day < today) = false := by
        rw [h1]; exact decide_eq_false (lt_irrefl today)
      simp [specNotifyEligible, hlt]
  have hnotif : ∀ e ∈ s.enrollments.map (fun e =>
      if specNotifyEligible org today e = true then
        { e with notified_at := some now1 } else e),
      specNotifyEligible org today e = false := by
    intro e he
    obtain ⟨x, _, rfl⟩ := List.mem_map.mp he
    exact key x
  constructor
  · simp only [check_expirations, checkRun_eq]
    rw [filter_eq_nil_of _ _ hnotif]
    rfl
  · simp only [check_expirations, checkRun_eq]
    rw [map_eq_self_of _ _ (fun e he => by
      rw [if_neg]
      rw [hnotif e he]
      simp)]

/-- Concrete database for the C4 witness: one active enrollment ending on
day 10 (so `days_left = 3` on day 7, a threshold hit on the first run). -/
def c4State : DBState :=
  ⟨[⟨1, 1, 1, 0, some 10, 100, EnrollStatus.actif, none, none⟩], [], []⟩

/-- Witness for C4 at a concrete input. -/
theorem C4_witness :
    (Timestamp.day ⟨7, 60⟩ = 7 ∧ Timestamp.day ⟨7, 120⟩ = 7) ∧
    (check_expirations (check_expirations c4State 1 7 ⟨7, 60⟩).1 1 7 ⟨7, 120⟩).2 = [] ∧
    (check_expirations (check_expirations c4State 1 7 ⟨7, 60⟩).1 1 7 ⟨7, 120⟩).1 =
      (check_expirations c4State 1 7 ⟨7, 60⟩).1 :=
  ⟨⟨rfl, rfl⟩,
    (C4_check_expirations_idempotent c4State 1 7 ⟨7, 60⟩ ⟨7, 120⟩ rfl rfl).1,
    (C4_check_expirations_idempotent c4State 1 7 ⟨7, 60⟩ ⟨7, 120⟩ rfl rfl).2⟩

/-! ## Claim C6 -/

/-- C6: `TerminateEnrollment` on an enrollment of the caller's organization
sets its status to `résilié` and stamps a non-null `terminated_at`; a
second call on the same id leaves the status at `résilié` (a status no-op —
it only re-stamps `terminated_at`), never un-terminating. -/
theorem C6_terminate_terminal (s : DBState) (org eid : Int)
    (now1 now2 : Timestamp) (i : Nat) (e : Enrollment)
    (h : findIdxElem (enrollByIdOrg eid org) s.enrollments = some (i, e)) :
    ∃ s1, terminate_enrollment s org eid now1 = some s1 ∧
      s1.enrollments[i]? =
        some { e with status := EnrollStatus.resilie, terminated_at := some now1 } ∧
      (∀ j : Nat, j ≠ i → s1.enrollments[j]? = s.enrollments[j]?) ∧
      (some now1 ≠ (none : Option Timestamp)) ∧
      ∃ s2, terminate_enrollment s1 org eid now2 = some s2 ∧
        (s2.enrollments[i]?).map Enrollment.status = some EnrollStatus.resilie := by
  obtain ⟨hget, hp⟩ := findIdxElem_sound _ _ _ _ h
  have hpf : enrollByIdOrg eid org
      { e with status := EnrollStatus.resilie, terminated_at := some now1 } = true := by
    simp only [enrollByIdOrg, decide_eq_true_eq] at hp ⊢
    exact hp
  refine ⟨_, by rw [terminate_enrollment, h], ?_, ?_, by simp, ?_⟩
  · rw [updateAt_getElem_self, hget]
    rfl
  · intro j hj
    exact updateAt_getElem_ne _ _ _ _ hj
  · have hfind2 := findIdxElem_updateAt (enrollByIdOrg eid org) s.enrollments i e
      (fun x => { x with status := EnrollStatus.resilie, terminated_at := some now1 }) h hpf
    refine ⟨_, by rw [terminate_enrollment, hfind2], ?_⟩
    rw [updateAt_getElem_self, updateAt_getElem_self, hget]
    rfl

/-- Concrete database for the C6 witness: one active enrollment of org 1. -/
def c6State : DBState :=
  ⟨[⟨1, 1, 1, 0, some 10, 100, EnrollStatus.actif, none, none⟩], [], []⟩

/-- Witness for C6 at a concrete input. -/
theorem C6_witness :
    findIdxElem (enrollByIdOrg 1 1) c6State.enrollments =
      some (0, ⟨1, 1, 1, 0, some 10, 100, EnrollStatus.actif, none, none⟩) ∧
    (∃ s1, terminate_enrollment c6State 1 1 ⟨5, 60⟩ = some s1 ∧
      s1.enrollments[0]? =
        some { (⟨1, 1, 1, 0, some 10, 100, EnrollStatus.actif, none, none⟩ : Enrollment) with
          status := EnrollStatus.resilie, terminated_at := some ⟨5, 60⟩ } ∧
      (∀ j : Nat, j ≠ 0 → s1.enrollments[j]? = c6State.enrollments[j]?) ∧
      (some (⟨5, 60⟩ : Timestamp) ≠ (none : Option Timestamp)) ∧
      ∃ s2, terminate_enrollment s1 1 1 ⟨6, 60⟩ = some s2 ∧
        (s2.enrollments[0]?).map Enrollment.status = some EnrollStatus.resilie) :=
  ⟨by decide,
    C6_terminate_terminal c6State 1 1 ⟨5, 60⟩ ⟨6, 60⟩ 0
      ⟨1, 1, 1, 0, some 10, 100, EnrollStatus.actif, none, none⟩ (by decide)⟩

/-! ## Claim C7 -/

/-- A terminated (`résilié`) enrollment with a definite end date. -/
def c7Enroll : Enrollment :=
  ⟨1, 1, 1, 0, some 100, 100, EnrollStatus.resilie, none, none⟩

/-- Database holding only the terminated enrollment. -/
def c7State : DBState := ⟨[c7Enroll], [], []⟩

/-- C7 counterexample: `RenewEnrollment` on a terminated enrollment DOES
change its status — the source sets `status = 'renouvelé'` without checking
the current status, so the terminated row ends up `renouvelé` (and a fresh
`actif` row is appended): terminated is not terminal under renewal. -/
theorem C7_counterexample :
    c7Enroll.status = EnrollStatus.resilie ∧
    (renew_enrollment c7State 1 1 30 none 50 2).map
        (fun r => r.1.enrollments.map Enrollment.status) =
      some [EnrollStatus.renouvele, EnrollStatus.actif] ∧
    EnrollStatus.renouvele ≠ EnrollStatus.resilie := by
  decide

/-- C7 amended: `RecordPayment` never touches a terminated enrollment (its
lookup only matches status `actif`), but `RenewEnrollment` on a terminated
enrollment sets that row's status to `renouvelé` (its other fields,
including `end_date`, are untouched) — so terminated is terminal for the
payment path only. -/
theorem C7_amended_terminated (s : DBState) (i : Nat) (e : Enrollment) :
    (∀ (org sid amount : Int) (pm : String) (dateVal durationDays : Int)
      (reference comment : Option String) (transId enrollId : Int),
      s.enrollments[i]? = some e → e.status = EnrollStatus.resilie →
      (record_payment s org sid amount pm dateVal durationDays reference comment
        transId enrollId).enrollments[i]? = some e) ∧
    (∀ (org eid durationDays : Int) (amountOpt : Option Int) (today newId : Int),
      findIdxElem (enrollByIdOrg eid org) s.enrollments = some (i, e) →
      e.status = EnrollStatus.resilie →
      ∃ s2, renew_enrollment s org eid durationDays amountOpt today newId =
          some (s2, newId) ∧
        s2.enrollments[i]? = some { e with status := EnrollStatus.renouvele }) := by
  constructor
  · intro org sid amount pm dateVal durationDays reference comment transId enrollId
      hget hstat
    have hi : i < s.enrollments.length := by
      by_contra hlen
      rw [List.getElem?_eq_none (by omega)] at hget
      exact Option.noConfusion hget
    cases hsel : selectIdx s.enrollments sid with
    | none =>
      simp only [record_payment, hsel]
      rw [List.getElem?_append_left hi]
      exact hget
    | some j =>
      obtain ⟨a, haj, hpa⟩ := selectIdx_sound _ _ _ hsel
      have hji : i ≠ j := by
        intro hij
        subst hij
        rw [hget] at haj
        have ha : a = e := (Option.some.inj haj).symm
        subst ha
        simp only [paymentMatches, decide_eq_true_eq] at hpa
        rw [hstat] at hpa
        exact EnrollStatus.noConfusion hpa.2
      simp only [record_payment, hsel]
      rw [updateAt_getElem_ne _ _ _ _ hji]
      exact hget
  · intro org eid durationDays amountOpt today newId hfind hstat
    have hget := (findIdxElem_sound _ _ _ _ hfind).1
    have hi : i < s.enrollments.length := by
      by_contra hlen
      rw [List.getElem?_eq_none (by omega)] at hget
      exact Option.noConfusion hget
    refine ⟨_, by rw [renew_enrollment, hfind], ?_⟩
    rw [List.getElem?_append_left (by rw [updateAt_length]; exact hi)]
    rw [updateAt_getElem_self, hget]
    rfl

/-- Witness for the amended C7 at a concrete input. -/
theorem C7_witness :
    ((record_payment c7State 1 1 100 "cash" 0 30 none none 5 6).enrollments[0]? =
      some c7Enroll) ∧
    (∃ s2, renew_enrollment c7State 1 1 30 none 50 2 = some (s2, 2) ∧
      s2.enrollments[0]? = some { c7Enroll with status := EnrollStatus.renouvele }) :=
  ⟨(C7_amended_terminated c7State 0 c7Enroll).1 1 1 100 "cash" 0 30 none none 5 6
      (by decide) (by decide),
   (C7_amended_terminated c7State 0 c7Enroll).2 1 1 30 none 50 2
      (by decide) (by decide)⟩

/-! ## Claim C8 -/

/-- An active enrollment belonging to organization 2 (student 2 of org 2). -/
def c8Enroll : Enrollment :=
  ⟨1, 2, 2, 0, some 100, 100, EnrollStatus.actif, none, none⟩

/-- Database holding only organization 2's enrollment. -/
def c8State : DBState := ⟨[c8Enroll], [], []⟩

/-- C8: tenant isolation FAILS in `record_payment` — its enrollment lookup
filters only on `student_id` and `status`, with no `organization_id`
clause, so a payment recorded by organization 1 against org 2's student
extends and renews org 2's enrollment row. -/
theorem C8_cross_org_write :
    c8Enroll.organization_id = 2 ∧
    (record_payment c8State 1 2 500 "cash" 90 30 none none 1 2).enrollments =
      [{ c8Enroll with end_date := some 130, status := EnrollStatus.renouvele }] ∧
    ({ c8Enroll with end_date := some 130, status := EnrollStatus.renouvele } :
        Enrollment).organization_id ≠ 1 := by
  decide

/-! ## Grouping lemmas for the reports -/

theorem addToGroup_sum (l : List (String × Int)) (k : String) (v : Int) :
    ((addToGroup l k v).map Prod.snd).sum = (l.map Prod.snd).sum + v := by
  induction l with
  | nil => simp [addToGroup]
  | cons x xs ih =>
    obtain ⟨k0, t0⟩ := x
    by_cases hk : k0 = k
    · simp only [addToGroup, hk, if_true, List.map_cons, List.sum_cons]
      ring
    · simp only [addToGroup, hk, if_false, List.map_cons, List.sum_cons, ih]
      ring

/-- Grouping by label preserves the total: the reported `total_expenses`
equals the plain sum over the joined rows. -/
theorem groupSum_sum (rows : List (String × Int)) :
    ((groupSum rows).map Prod.snd).sum = (rows.map Prod.snd).sum := by
  suffices H : ∀ acc : List (String × Int),
      (((rows.foldl (fun acc r => addToGroup acc r.1 r.2) acc).map Prod.snd).sum) =
        (acc.map Prod.snd).sum + (rows.map Prod.snd).sum by
    simpa [groupSum] using H []
  induction rows with
  | nil => intro acc; simp
  | cons r rs ih =>
    intro acc
    simp only [List.foldl_cons, ih, addToGroup_sum, List.map_cons, List.sum_cons]
    ring

/-- A transaction contributes to the expenses-by-category join exactly when
its (nullable) `category_id` matches an existing category row. -/
def hasJoinableCategory (cats : List TransactionCategory) (t : Transaction) : Bool :=
  match t.category_id with
  | none => false
  | some cid => (cats.find? (fun c => decide (c.id = cid))).isSome

/-- The joined rows carry exactly the amounts of the in-window expense
transactions that still reference an existing category. -/
theorem expenseJoinRows_amounts (s : DBState) (org : Int) (w : Int → Bool) :
    (expenseJoinRows s org w).map Prod.snd =
      (s.transactions.filter (fun t =>
        decide (t.organization_id = org) && decide (t.type = TransType.depense) &&
        w t.date && hasJoinableCategory s.categories t)).map Transaction.amount := by
  unfold expenseJoinRows
  induction s.transactions with
  | nil => rfl
  | cons t ts ih =>
    simp only [List.filterMap_cons, List.filter_cons]
    by_cases h1 : (decide (t.organization_id = org) &&
        decide (t.type = TransType.depense) && w t.date) = true
    · cases hc : t.category_id with
      | none =>
        simp [joinRow, h1, hc, hasJoinableCategory, ih]
      | some cid =>
        cases hf : s.categories.find? (fun c => decide (c.id = cid)) with
        | none =>
          simp [joinRow, h1, hc, hf, hasJoinableCategory, ih]
        | some c =>
          simp [joinRow, h1, hc, hf, hasJoinableCategory, ih]
    · have h1' : (decide (t.organization_id = org) &&
          decide (t.type = TransType.depense) && w t.date) = false :=
        Bool.not_eq_true _ |>.mp h1
      simp [joinRow, h1', ih]

/-! ## Claim C9 -/

/-- A transaction of organization 1: gain of 500 on 2024-03-10. -/
def c9Gain : Transaction :=
  ⟨1, 1, none, daysFromCivil 2024 3 10, TransType.gain, 500, "cash", none, none, none⟩

/-- A categorized expense of organization 1: −120 on 2024-03-15. -/
def c9Expense : Transaction :=
  ⟨2, 1, none, daysFromCivil 2024 3 15, TransType.depense, -120, "cash", none, some 1, none⟩

/-- Concrete ledger for the C9 example: gains totaling 500 and categorized
expenses totaling −120 inside 2024-03. -/
def c9State : DBState := ⟨[], [c9Gain, c9Expense], [⟨1, 1, "rent", false⟩]⟩

/-- C9: `MonthlyReport` returns gains = the sum of gain-transaction amounts
in the month, `total_expenses` = the sum of the per-category expense totals
(equivalently, of the in-window category-joined expense amounts), and
`profit_loss = gains + total_expenses`; concretely, gains 500 and expenses
−120 give profit 380. -/
theorem C9_monthly_report_totals :
    (∀ (s : DBState) (org y m : Int),
      (monthly_report s org y m).gains =
        ((s.transactions.filter (fun t =>
          decide (t.organization_id = org) && decide (t.type = TransType.gain) &&
          inMonth y m t.date)).map Transaction.amount).sum ∧
      (monthly_report s org y m).total_expenses =
        ((monthly_report s org y m).expenses.map Prod.snd).sum ∧
      (monthly_report s org y m).total_expenses =
        ((s.transactions.filter (fun t =>
          decide (t.organization_id = org) && decide (t.type = TransType.depense) &&
          inMonth y m t.date && hasJoinableCategory s.categories t)).map
            Transaction.amount).sum ∧
      (monthly_report s org y m).profit_loss =
        (monthly_report s org y m).gains + (monthly_report s org y m).total_expenses) ∧
    monthly_report c9State 1 2024 3 = ⟨500, [("rent", -120)], -120, 380⟩ := by
  constructor
  · intro s org y m
    refine ⟨rfl, rfl, ?_, rfl⟩
    show ((groupSum (expenseJoinRows s org (inMonth y m))).map Prod.snd).sum = _
    rw [groupSum_sum, expenseJoinRows_amounts]
  · decide

/-! ## Claim C10 -/

/-- Appending an expense transaction with a null category reference changes
neither report: it fails the gains filter (wrong type) and drops out of the
expenses inner join (no category to join on). -/
theorem reportFor_append_uncat (s : DBState) (org : Int) (w : Int → Bool)
    (t : Transaction) (h1 : t.category_id = none)
    (h2 : t.type = TransType.depense) :
    reportFor { s with transactions := s.transactions ++ [t] } org w =
      reportFor s org w := by
  have hg : decide (t.type = TransType.gain) = false := by
    apply decide_eq_false
    rw [h2]
    exact fun hc => TransType.noConfusion hc
  unfold reportFor gainsSum expenseJoinRows
  simp [List.filter_append, List.filterMap_append, List.filter_cons,
    List.filterMap_cons, joinRow, h1, hg]

/-- The uncategorized expense of the C10 example: −120 on 2024-03-15 with a
null category reference. -/
def c10Expense : Transaction :=
  ⟨2, 1, none, daysFromCivil 2024 3 15, TransType.depense, -120, "cash", none, none, none⟩

/-- Ledger before the uncategorized expense: one gain of 500 in 2024-03. -/
def c10Base : DBState := ⟨[], [c9Gain], []⟩

/-- Ledger with the gain and the uncategorized −120 expense. -/
def c10State : DBState := ⟨[], [c9Gain, c10Expense], []⟩

/-- Category table + one transaction referencing it, to exercise
`delete_category`'s SET NULL cascade. -/
def c10DelState : DBState :=
  ⟨[], [⟨1, 1, none, 0, TransType.depense, -5, "cash", none, some 1, none⟩],
    [⟨1, 1, "rent", false⟩]⟩

/-- Result of deleting category 1 from `c10DelState`. -/
def c10DelResult : DBState :=
  ⟨[], [⟨1, 1, none, 0, TransType.depense, -5, "cash", none, none, none⟩], []⟩

/-- C10: an expense transaction whose category reference is null is
excluded from `MonthlyReport` and `AnnualReport` (expenses mapping,
`total_expenses`, hence `profit_loss`) while the dashboard balance still
includes its amount; deleting a category nulls the references of its
transactions; concretely, a 500 gain plus an uncategorized −120 expense
report `profit_loss = 500` although the balance is 380. -/
theorem C10_uncategorized_expense :
    (∀ (s : DBState) (org y m : Int) (t : Transaction),
      t.category_id = none → t.type = TransType.depense → t.organization_id = org →
      monthly_report { s with transactions := s.transactions ++ [t] } org y m =
        monthly_report s org y m ∧
      annual_report { s with transactions := s.transactions ++ [t] } org y =
        annual_report s org y ∧
      balance { s with transactions := s.transactions ++ [t] } org =
        balance s org + t.amount) ∧
    (∀ (s : DBState) (org cid : Int) (s2 : DBState),
      delete_category s org cid = some s2 →
      s2.transactions = s.transactions.map (fun t =>
        if t.category_id = some cid then { t with category_id := none } else t)) ∧
    ((monthly_report c10State 1 2024 3).profit_loss = 500 ∧
      balance c10State 1 = 380 ∧
      balance c10State 1 < (monthly_report c10State 1 2024 3).profit_loss) := by
  refine ⟨?_, ?_, by decide⟩
  · intro s org y m t h1 h2 h3
    refine ⟨reportFor_append_uncat s org (inMonth y m) t h1 h2,
      reportFor_append_uncat s org (inYear y) t h1 h2, ?_⟩
    have h3' : decide (t.organization_id = org) = true := decide_eq_true h3
    unfold balance
    simp [List.filter_append, List.filter_cons, h3']
  · intro s org cid s2 hdel
    unfold delete_category at hdel
    cases hf : findIdxElem (fun c =>
        decide (c.id = cid ∧ c.organization_id = org)) s.categories with
    | none =>
      rw [hf] at hdel
      exact Option.noConfusion hdel
    | some r =>
      obtain ⟨i, c⟩ := r
      rw [hf] at hdel
      dsimp only at hdel
      by_cases hs : c.is_system = true
      · rw [if_pos hs] at hdel
        exact Option.noConfusion hdel
      · rw [if_neg hs] at hdel
        have := Option.some.inj hdel
        rw [← this]

/-- Witness for C10 at concrete inputs. -/
theorem C10_witness :
    (monthly_report { c10Base with
        transactions := c10Base.transactions ++ [c10Expense] } 1 2024 3 =
      monthly_report c10Base 1 2024 3 ∧
    annual_report { c10Base with
        transactions := c10Base.transactions ++ [c10Expense] } 1 2024 =
      annual_report c10Base 1 2024 ∧
    balance { c10Base with
        transactions := c10Base.transactions ++ [c10Expense] } 1 =
      balance c10Base 1 + c10Expense.amount) ∧
    c10DelResult.transactions = c10DelState.transactions.map (fun t =>
      if t.category_id = some 1 then { t with category_id := none } else t) :=
  ⟨C10_uncategorized_expense.1 c10Base 1 2024 3 c10Expense rfl rfl rfl,
   C10_uncategorized_expense.2.1 c10DelState 1 1 c10DelResult (by decide)⟩
